import Mathlib

/-!
Verification of the mayan-logger logging pipeline.

This file shallowly embeds the core of the `mayan-logger` JavaScript library
(`src/types.js`, `src/logger.js`, `src/formats.js`, `src/utils.js`) in Lean 4
and proves properties of the embedding.  JavaScript objects with reference
identity (error instances, tracing targets, collectors) are modelled by
explicit numeric identities; `WeakSet`s become lists of identities; mutation
becomes explicit state passing; `throw` becomes an explicit error result.
-/

set_option autoImplicit false

namespace Mayan

/-- The seven log levels, from `LOG_LEVELS` in `src/types.js`. -/
inductive Level
  | silent
  | error
  | warn
  | info
  | verbose
  | debug
  | trace
deriving DecidableEq, Repr, Fintype

/-- The fixed numeric values of the levels, `LOG_LEVEL_VALUES` in `src/types.js`:
`{silent: -1, error: 0, warn: 1, info: 2, verbose: 3, debug: 4, trace: 5}`. -/
def LOG_LEVEL_VALUES : Level → Int
  | .silent => -1
  | .error => 0
  | .warn => 1
  | .info => 2
  | .verbose => 3
  | .debug => 4
  | .trace => 5

/-- The level names, as the `LOG_LEVELS` hash maps each of the seven names to
itself (`src/types.js`). -/
def levelName : Level → String
  | .silent => "silent"
  | .error => "error"
  | .warn => "warn"
  | .info => "info"
  | .verbose => "verbose"
  | .debug => "debug"
  | .trace => "trace"

/-- `MayanLogger._shouldLog` (`src/logger.js` lines 77-85).

```js
this._shouldLog = (collector, level) => {
  if (!_enabled) { return false; }
  const effectiveLevel = collector.level || _level;
  return LOG_LEVEL_VALUES[level] <= LOG_LEVEL_VALUES[effectiveLevel];
};
```

`collector.level` is either unset (`undefined`, falsy) or one of the seven
level names (non-empty strings, all truthy), so `collector.level || _level`
is modelled by `Option.getD`. -/
def shouldLog (enabled : Bool) (globalLevel : Level) (collectorLevel : Option Level)
    (level : Level) : Bool :=
  if !enabled then
    false
  else
    LOG_LEVEL_VALUES level ≤ LOG_LEVEL_VALUES (collectorLevel.getD globalLevel)

/-- C1: for every collector state and every level in the seven-level set,
`_shouldLog` returns true iff the logger is enabled and
`value(level) ≤ value(effective)`, where the effective level is the
collector's override when set and the current global level otherwise;
moreover when the effective threshold is `silent`, `_shouldLog` is false for
every actual call level (`silent` itself is never a call level). -/
theorem shouldLog_iff_enabled_and_le :
    ∀ (enabled : Bool) (globalLevel : Level) (collectorLevel : Option Level) (level : Level),
      (shouldLog enabled globalLevel collectorLevel level = true ↔
        enabled = true ∧
          LOG_LEVEL_VALUES level ≤ LOG_LEVEL_VALUES (collectorLevel.getD globalLevel)) ∧
      (collectorLevel.getD globalLevel = Level.silent → level ≠ Level.silent →
        shouldLog enabled globalLevel collectorLevel level = false) := by
  decide

/-- Witness for C1: with the logger enabled, global level `info` and a
collector override of `silent`, an `error`-level call is rejected. -/
theorem shouldLog_iff_enabled_and_le_witness :
    shouldLog true Level.info (some Level.silent) Level.error = false :=
  (shouldLog_iff_enabled_and_le true Level.info (some Level.silent) Level.error).2
    rfl (by decide)

/-! ## The `_log` pipeline (`src/logger.js` lines 95-144)

Error instances are JavaScript objects compared by reference identity
(`_loggedErrors` is a `WeakSet`), so each error value is modelled with an
explicit numeric identity alongside its `message` text: two instances with
the same message but different identities are distinct set members. -/

/-- An `Error` instance: reference identity plus its `message` property. -/
structure JsError where
  id : Nat
  message : String
deriving DecidableEq, Repr

/-- The `message` argument of `_log`, by the dynamic checks the code makes:
an `Error` instance, a function (with its possibly-empty `name`), or any
other value coerced to a string. -/
inductive LogMessage
  | str (s : String)
  | err (e : JsError)
  | fn (name : String)
deriving DecidableEq, Repr

/-- One extra positional argument of `_log`: an `Error` instance or some
other (opaque, stringly-modelled) value. -/
inductive LogArg
  | err (e : JsError)
  | val (v : String)
deriving DecidableEq, Repr

/-- Mutable logger state read and written by `_log`:
`_enabled`, `_level`, and the `_loggedErrors` `WeakSet` (as the list of
identities of the error instances it contains). -/
structure LogState where
  enabled : Bool
  level : Level
  loggedErrors : List Nat
deriving DecidableEq, Repr

/-- One call to `_log`: the submitting collector's level override, the call
level, the message, and the extra arguments. -/
structure LogCall where
  collectorLevel : Option Level
  level : Level
  message : LogMessage
  args : List LogArg
deriving DecidableEq, Repr

/-- The message text after `_log`'s normalization: an error message becomes
`''`, a function becomes `` `${message.name || 'function'}()` ``, anything
else was coerced to a string. -/
def logMessageText : LogMessage → String
  | .str s => s
  | .err _ => ""
  | .fn name => (if name = "" then "function" else name) ++ "()"

/-- The error-extraction steps of `_log`: if the message is an `Error` it is
captured (and the extra arguments left alone); otherwise, if the first extra
argument is an `Error`, it is captured and dropped from the argument list. -/
def captureError : LogMessage → List LogArg → Option JsError × List LogArg
  | .err e, args => (some e, args)
  | _, .err e :: rest => (some e, rest)
  | _, args => (none, args)

/-- A line actually handed to the formatter/writer: the fields of the
`MayanLoggerMessage` constructed by `_log` (timestamp omitted — it does not
affect whether or what is written). -/
structure WrittenMessage where
  level : Level
  message : String
  error : Option JsError
  data : List LogArg
deriving DecidableEq, Repr

/-- `MayanLogger._log` (`src/logger.js` lines 95-144) as a state transition:
filter via `_shouldLog`, normalize the message, extract an error, suppress
the whole call if that exact error instance was already logged (otherwise
mark it as seen), then construct and write exactly one line. -/
def logStep (st : LogState) (c : LogCall) : LogState × Option WrittenMessage :=
  if !shouldLog st.enabled st.level c.collectorLevel c.level then
    (st, none)
  else
    let (error, args) := captureError c.message c.args
    let message := logMessageText c.message
    match error with
    | some e =>
        if e.id ∈ st.loggedErrors then
          -- Prevent logging the same error multiple times
          (st, none)
        else
          ({ st with loggedErrors := e.id :: st.loggedErrors },
            some ⟨c.level, message, some e, args⟩)
    | none => (st, some ⟨c.level, message, none, args⟩)

/-- Events that touch the state read by `_log`: a log call, `setLevel`
(always given a valid level here, so it never throws), and `setEnabled`. -/
inductive LoggerEvent
  | log (c : LogCall)
  | setLevel (l : Level)
  | setEnabled (b : Bool)
deriving DecidableEq, Repr

/-- One logger event applied to the state, together with the line it wrote
(if any). -/
def eventStep (st : LogState) : LoggerEvent → LogState × Option WrittenMessage
  | .log c => logStep st c
  | .setLevel l => ({ st with level := l }, none)
  | .setEnabled b => ({ st with enabled := b }, none)

/-- A sequence of logger events, returning the final state and every written
line in order. -/
def eventTrace (st : LogState) : List LoggerEvent → LogState × List WrittenMessage
  | [] => (st, [])
  | e :: es =>
      let (st1, w) := eventStep st e
      let (st2, ws) := eventTrace st1 es
      (st2, w.toList ++ ws)

/-- The call captures the error instance with identity `i`. -/
def capturesErrorId (c : LogCall) (i : Nat) : Prop :=
  ∃ e : JsError, (captureError c.message c.args).1 = some e ∧ e.id = i

instance (c : LogCall) (i : Nat) : Decidable (capturesErrorId c i) := by
  unfold capturesErrorId
  cases h : (captureError c.message c.args).1 with
  | none => exact .isFalse (by simp [h])
  | some e => exact decidable_of_iff (e.id = i) (by simp [h])

/-- `_log` only ever adds to `_loggedErrors`, and any identity it adds is the
identity of the error carried by the line written by that very call. -/
theorem logStep_loggedErrors_origin (st : LogState) (c : LogCall) (i : Nat) :
    i ∈ (logStep st c).1.loggedErrors →
    i ∈ st.loggedErrors ∨
      ∃ w, (logStep st c).2 = some w ∧ ∃ e : JsError, w.error = some e ∧ e.id = i := by
  unfold logStep
  split
  · simp
  · rcases h : captureError c.message c.args with ⟨err, rest⟩
    cases err with
    | none => simp
    | some e =>
        by_cases he : e.id ∈ st.loggedErrors
        · simp [he]
        · simp only [he, if_false]
          intro hi
          rcases List.mem_cons.mp hi with hi | hi
          · exact Or.inr ⟨_, rfl, e, rfl, hi.symm⟩
          · exact Or.inl hi

/-- Same origin property lifted to a single logger event. -/
theorem eventStep_loggedErrors_origin (st : LogState) (ev : LoggerEvent) (i : Nat) :
    i ∈ (eventStep st ev).1.loggedErrors →
    i ∈ st.loggedErrors ∨
      ∃ w, (eventStep st ev).2 = some w ∧ ∃ e : JsError, w.error = some e ∧ e.id = i := by
  cases ev with
  | log c => exact logStep_loggedErrors_origin st c i
  | setLevel l => intro hi; exact Or.inl hi
  | setEnabled b => intro hi; exact Or.inl hi

/-- An error identity already in `_loggedErrors` stays there across any
logger event. -/
theorem eventStep_loggedErrors_mono (st : LogState) (ev : LoggerEvent) (i : Nat)
    (hi : i ∈ st.loggedErrors) : i ∈ (eventStep st ev).1.loggedErrors := by
  cases ev with
  | log c =>
      show i ∈ (logStep st c).1.loggedErrors
      unfold logStep
      split
      · exact hi
      · rcases h : captureError c.message c.args with ⟨err, rest⟩
        cases err with
        | none => exact hi
        | some e =>
            by_cases he : e.id ∈ st.loggedErrors
            · simpa [he] using hi
            · simp only [he, if_false]
              exact List.mem_cons_of_mem _ hi
  | setLevel l => exact hi
  | setEnabled b => exact hi

/-- C2: the first `_log` call that captures a given error instance and passes
the level filter writes exactly one line and marks the instance as seen; any
later call capturing the same instance writes nothing at all; a distinct
instance with an identical message text is not deduplicated and gets its own
written line. -/
theorem log_dedups_same_error_instance :
    ∀ (st : LogState) (c : LogCall) (e : JsError) (rest : List LogArg),
      (captureError c.message c.args = (some e, rest) →
        shouldLog st.enabled st.level c.collectorLevel c.level = true →
        e.id ∉ st.loggedErrors →
        logStep st c =
          ({ st with loggedErrors := e.id :: st.loggedErrors },
            some ⟨c.level, logMessageText c.message, some e, rest⟩)) ∧
      (capturesErrorId c e.id →
        e.id ∈ st.loggedErrors →
        logStep st c = (st, none)) ∧
      (∀ ev : LoggerEvent, e.id ∈ st.loggedErrors → e.id ∈ (eventStep st ev).1.loggedErrors) ∧
      (∀ (e' : JsError) (c' : LogCall) (rest' : List LogArg),
        e'.id ≠ e.id → e'.message = e.message →
        captureError c'.message c'.args = (some e', rest') →
        shouldLog st.enabled st.level c'.collectorLevel c'.level = true →
        e'.id ∉ st.loggedErrors →
        (logStep st c').2 =
          some ⟨c'.level, logMessageText c'.message, some e', rest'⟩) := by
  intro st c e rest
  refine ⟨?_, ?_, ?_, ?_⟩
  · intro hcap hfilter hfresh
    unfold logStep
    simp [hfilter, hcap, hfresh]
  · rintro ⟨e'', hcap, hid⟩ hseen
    unfold logStep
    split
    · rfl
    · rcases h : captureError c.message c.args with ⟨err, rest''⟩
      rw [h] at hcap
      simp only at hcap
      subst hcap
      simp [hid, hseen]
  · intro ev hseen
    exact eventStep_loggedErrors_mono st ev e.id hseen
  · intro e' c' rest' _ _ hcap hfilter hfresh
    unfold logStep
    simp [hfilter, hcap, hfresh]

/-- Witness for C2: a fresh error instance (identity 0) logged at `error`
level on an enabled logger at global level `info` is written once and
marked; the same instance logged again is suppressed; a distinct instance
(identity 1) with the same message is written. -/
theorem log_dedups_same_error_instance_witness :
    (logStep ⟨true, Level.info, []⟩
        ⟨none, Level.error, LogMessage.err ⟨0, "boom"⟩, []⟩ =
      (⟨true, Level.info, [0]⟩,
        some ⟨Level.error, "", some ⟨0, "boom"⟩, []⟩)) ∧
    (logStep ⟨true, Level.info, [0]⟩
        ⟨none, Level.error, LogMessage.err ⟨0, "boom"⟩, []⟩ =
      (⟨true, Level.info, [0]⟩, none)) ∧
    ((logStep ⟨true, Level.info, [0]⟩
        ⟨none, Level.error, LogMessage.err ⟨1, "boom"⟩, []⟩).2 =
      some ⟨Level.error, "", some ⟨1, "boom"⟩, []⟩) :=
  ⟨(log_dedups_same_error_instance ⟨true, Level.info, []⟩
      ⟨none, Level.error, LogMessage.err ⟨0, "boom"⟩, []⟩ ⟨0, "boom"⟩ []).1
      rfl rfl (by decide),
    (log_dedups_same_error_instance ⟨true, Level.info, [0]⟩
      ⟨none, Level.error, LogMessage.err ⟨0, "boom"⟩, []⟩ ⟨0, "boom"⟩ []).2.1
      ⟨⟨0, "boom"⟩, rfl, rfl⟩ (by decide),
    (log_dedups_same_error_instance ⟨true, Level.info, [0]⟩
      ⟨none, Level.error, LogMessage.err ⟨0, "boom"⟩, []⟩ ⟨0, "boom"⟩ []).2.2.2
      ⟨1, "boom"⟩ ⟨none, Level.error, LogMessage.err ⟨1, "boom"⟩, []⟩ []
      (by decide) rfl rfl rfl (by decide)⟩

/-- C9: a log call rejected by `_shouldLog` returns before the
error-extraction step, so it neither writes nor records its error argument in
`_loggedErrors`; an error identity can only enter `_loggedErrors` through a
call that also wrote a line carrying that error; hence a later call that
captures a so-far-only-filtered instance and passes the filter writes its
line. -/
theorem filtered_log_does_not_record_error :
    ∀ (st : LogState) (c : LogCall),
      (shouldLog st.enabled st.level c.collectorLevel c.level = false →
        logStep st c = (st, none)) ∧
      (∀ (es : List LoggerEvent) (i : Nat),
        i ∈ (eventTrace st es).1.loggedErrors →
        i ∈ st.loggedErrors ∨
          ∃ w ∈ (eventTrace st es).2, ∃ e : JsError, w.error = some e ∧ e.id = i) ∧
      (∀ (e : JsError) (rest : List LogArg),
        captureError c.message c.args = (some e, rest) →
        e.id ∉ st.loggedErrors →
        shouldLog st.enabled st.level c.collectorLevel c.level = true →
        (logStep st c).2 = some ⟨c.level, logMessageText c.message, some e, rest⟩) := by
  intro st c
  refine ⟨?_, ?_, ?_⟩
  · intro hfilter
    unfold logStep
    simp [hfilter]
  · intro es
    induction es generalizing st with
    | nil => intro i hi; exact Or.inl (by simpa [eventTrace] using hi)
    | cons ev es ih =>
        intro i hi
        have hstep : eventTrace st (ev :: es) =
            ((eventTrace (eventStep st ev).1 es).1,
              (eventStep st ev).2.toList ++ (eventTrace (eventStep st ev).1 es).2) := by
          simp [eventTrace]
        rw [hstep] at hi
        rcases ih (eventStep st ev).1 i hi with hi' | ⟨w, hw, hwe⟩
        · rcases eventStep_loggedErrors_origin st ev i hi' with hi'' | ⟨w, hw, hwe⟩
          · exact Or.inl hi''
          · refine Or.inr ⟨w, ?_, hwe⟩
            rw [hstep, hw]
            simp
        · refine Or.inr ⟨w, ?_, hwe⟩
          rw [hstep]
          simp [hw]
  · intro e rest hcap hfresh hfilter
    unfold logStep
    simp [hfilter, hcap, hfresh]

/-- Witness for C9: with the logger at global level `error`, an `info` call
carrying error instance 0 is filtered and leaves the state untouched; the
same instance logged later at `error` level is written. -/
theorem filtered_log_does_not_record_error_witness :
    (logStep ⟨true, Level.error, []⟩
        ⟨none, Level.info, LogMessage.str "ctx", [LogArg.err ⟨0, "boom"⟩]⟩ =
      (⟨true, Level.error, []⟩, none)) ∧
    ((logStep ⟨true, Level.error, []⟩
        ⟨none, Level.error, LogMessage.str "ctx", [LogArg.err ⟨0, "boom"⟩]⟩).2 =
      some ⟨Level.error, "ctx", some ⟨0, "boom"⟩, []⟩) :=
  ⟨(filtered_log_does_not_record_error ⟨true, Level.error, []⟩
      ⟨none, Level.info, LogMessage.str "ctx", [LogArg.err ⟨0, "boom"⟩]⟩).1 (by decide),
    (filtered_log_does_not_record_error ⟨true, Level.error, []⟩
      ⟨none, Level.error, LogMessage.str "ctx", [LogArg.err ⟨0, "boom"⟩]⟩).2.2
      ⟨0, "boom"⟩ [] rfl (by decide) (by decide)⟩

/-! ## The compact inspector (`src/utils.js` lines 38-94)

`inspectCompact` renders arbitrary values for tracing.  Values are modelled
by an inductive type covering the branches the source distinguishes; the
`libUtil.inspect` fallback is modelled for strings (quoted) and integers
(decimal), which is what the leaf branches produce for the inputs considered
here.  String lengths are codepoint counts (the inputs in this development
are ASCII, where this agrees with JavaScript's UTF-16 `length`). -/

/-- `INSPECT_COMPACT_OPTIONS.id_properties` from `src/utils.js`. -/
def INSPECT_id_properties : List String := ["id", "name", "title", "key", "index"]

/-- `INSPECT_COMPACT_OPTIONS.string_cutoff` from `src/utils.js`. -/
def INSPECT_string_cutoff : Nat := 250

/-- `INSPECT_COMPACT_OPTIONS.array_cutoff` from `src/utils.js`. -/
def INSPECT_array_cutoff : Nat := 500

/-- A JavaScript value as discriminated by `inspectCompact`: an `Error`
(carrying its `String(arg)` form), a `RegExp` (carrying its literal form), a
`Date` (carrying its ISO form), an array, a plain object (constructor name
plus its truthy id-properties as strings), a string, or a number. -/
inductive JsVal
  | verr (str : String)
  | vregex (lit : String)
  | vdate (iso : String)
  | varr (elems : List JsVal)
  | vobj (ctorName : String) (idProps : List (String × String))
  | vstr (s : String)
  | vint (n : Int)

mutual

/-- `inspectCompact` from `src/utils.js` (lines 38-94), with the default
options. -/
def inspectCompact : JsVal → String
  | .verr s => "\x7b" ++ s ++ "\x7d"
  | .vregex lit => lit
  | .vdate iso => iso
  | .varr elems =>
      let members := inspectArrayMembers elems 0
      -- the loop index `i` at exit equals the number of members pushed
      let i := members.length
      let suffix :=
        if i < elems.length - 1 then
          "... (" ++ toString (elems.length - i + 1) ++ " more)"
        else ""
      "[" ++ String.intercalate ", " members ++ suffix ++ "]"
  | .vobj ctorName idProps =>
      let props := INSPECT_id_properties.filterMap fun p =>
        (idProps.lookup p).map fun v => p ++ "=" ++ v
      let name := if ctorName = "" then "Bag" else ctorName
      let name := if name = "Object" then "Hash" else name
      if props.length ≠ 0 then
        "\x7b" ++ name ++ ": " ++ String.intercalate " " props ++ "\x7d"
      else
        "\x7b" ++ name ++ "\x7d"
  | .vstr s =>
      let s :=
        if s.length ≥ INSPECT_string_cutoff then
          s.take (INSPECT_string_cutoff - 3) ++ "..."
        else s
      "'" ++ s ++ "'"
  | .vint n => toString n

/-- The element loop of `inspectCompact`'s array branch: render elements in
order, breaking as soon as the cumulative length of rendered members would
exceed the cutoff. -/
def inspectArrayMembers : List JsVal → Nat → List String
  | [], _ => []
  | x :: rest, totalLength =>
      let member := inspectCompact x
      if totalLength + member.length > INSPECT_array_cutoff then
        []
      else
        member :: inspectArrayMembers rest (totalLength + member.length)

end

/-- The number of elements the greedy budgeted loop renders: the longest
prefix whose rendered lengths fit, one at a time, within the budget. -/
def greedyRenderCount (budget : Nat) : List Nat → Nat
  | [] => 0
  | l :: rest => if l > budget then 0 else 1 + greedyRenderCount (budget - l) rest

/-- The element loop renders exactly the greedy-budget prefix of the
element renderings, in order. -/
theorem inspectArrayMembers_eq_take (elems : List JsVal) :
    ∀ totalLength : Nat, totalLength ≤ INSPECT_array_cutoff →
      inspectArrayMembers elems totalLength =
        (elems.map inspectCompact).take
          (greedyRenderCount (INSPECT_array_cutoff - totalLength)
            (elems.map fun v => (inspectCompact v).length)) := by
  induction elems with
  | nil => intro t _; rfl
  | cons x rest ih =>
      intro t ht
      simp only [inspectArrayMembers, List.map_cons, greedyRenderCount]
      by_cases h : t + (inspectCompact x).length > INSPECT_array_cutoff
      · have hgt : (inspectCompact x).length > INSPECT_array_cutoff - t := by omega
        simp only [if_pos h, if_pos hgt, List.take_zero]
      · have hgt : ¬ (inspectCompact x).length > INSPECT_array_cutoff - t := by omega
        have harith : INSPECT_array_cutoff - t - (inspectCompact x).length =
            INSPECT_array_cutoff - (t + (inspectCompact x).length) := by omega
        simp only [if_neg h, if_neg hgt]
        rw [ih (t + (inspectCompact x).length) (by omega), harith, Nat.add_comm 1 _,
          List.take_succ_cons]

/-- C7 (as the code actually behaves): the array branch renders the
greedy-budget prefix of the element renderings in order; the `"... (N
more)"` suffix appears only when the rendered count is below `length - 1`
(at least two elements omitted), and then `N` is the number of omitted
elements **plus one**. -/
theorem inspectCompact_array_truncation (elems : List JsVal) :
    inspectCompact (.varr elems) =
      (let members := (elems.map inspectCompact).take
          (greedyRenderCount INSPECT_array_cutoff
            (elems.map fun v => (inspectCompact v).length))
      "[" ++ String.intercalate ", " members ++
        (if members.length < elems.length - 1 then
          "... (" ++ toString (elems.length - members.length + 1) ++ " more)"
        else "") ++ "]") := by
  rw [inspectCompact]
  rw [inspectArrayMembers_eq_take elems 0 (by simp [INSPECT_array_cutoff])]
  simp

/-- The rendering C7 claims for a truncated array: whenever at least one
element is omitted, the output ends with `"... (N more)"` where `N` is
exactly the number of omitted elements. -/
def claimedArrayRendering (elems : List JsVal) : Prop :=
  (inspectArrayMembers elems 0).length < elems.length →
    inspectCompact (.varr elems) =
      "[" ++ String.intercalate ", " (inspectArrayMembers elems 0) ++
        ("... (" ++ toString (elems.length - (inspectArrayMembers elems 0).length) ++
          " more)") ++ "]"

set_option maxRecDepth 10000 in
/-- Counterexamples to C7 as stated.  For an array of two 300-character
regular expressions (each rendered verbatim) the loop renders one member and
omits one element, yet no suffix is produced; for an array of eleven
200-character regular expressions the loop renders two members and omits
nine, but the suffix reads `(10 more)` rather than `(9 more)`. -/
theorem claimedArrayRendering_counterexample :
    ¬ claimedArrayRendering
        [JsVal.vregex (String.mk (List.replicate 300 'r')),
          JsVal.vregex (String.mk (List.replicate 300 'r'))] ∧
    ¬ claimedArrayRendering
        (List.replicate 11 (JsVal.vregex (String.mk (List.replicate 200 'r')))) := by
  constructor <;> · intro h; exact absurd (h (by decide)) (by decide)

/-! ## The tracing wrapper (`src/logger.js` lines 182-196)

```js
this._makeTracingWrapper = (collector, name, fn) => {
  return function tracingWrapper() {
    if (fn.name) { name = fn.name; }
    const args = Array.prototype.map.call(arguments, thisLogger._tracingArgToString).join(', ');
    const message = `[TRACE] ${name}(${args})`;
    thisLogger._log(collector, options.tracing.level, message);
    return fn.apply(this, arguments);
  };
};
```

The wrapped function is modelled as an opaque Lean function of the `this`
binding and the argument list; the wrapper's two effects — the `_log` call
against the live logger state and the invocation of `fn` — are returned
side by side. -/

/-- One invocation of a wrapper produced by `_makeTracingWrapper`:
`wrapName` is the `name` the wrapper was created with, `fnName` is the
wrapped function's own (possibly empty) `name` property.  Returns the
`_log` outcome (new state and the written trace line, if any) together with
the wrapped function's result. -/
def tracingWrapper {α : Type} (st : LogState) (tracingLevel : Level)
    (collectorLevel : Option Level) (wrapName fnName : String)
    (fn : JsVal → List JsVal → α) (thisArg : JsVal) (args : List JsVal) :
    (LogState × Option WrittenMessage) × α :=
  let name := if fnName ≠ "" then fnName else wrapName
  let message := "[TRACE] " ++ name ++ "(" ++
    String.intercalate ", " (args.map inspectCompact) ++ ")"
  (logStep st ⟨collectorLevel, tracingLevel, .str message, []⟩, fn thisArg args)

/-- The trace message text an invocation of the wrapper produces. -/
def traceMessageText (wrapName fnName : String) (args : List JsVal) : String :=
  "[TRACE] " ++ (if fnName ≠ "" then fnName else wrapName) ++ "(" ++
    String.intercalate ", " (args.map inspectCompact) ++ ")"

/-- C3: every invocation of the tracing wrapper returns the wrapped
function's result on the original `this` binding and argument list,
unchanged; when the live enabled/level state filters the trace level out,
only the trace line is omitted (the state is untouched and nothing is
written) while the wrapped function is still invoked; when the filter
passes, the `[TRACE] name(args...)` line is written at the tracing level. -/
theorem tracingWrapper_preserves_call {α : Type} :
    ∀ (st : LogState) (tracingLevel : Level) (collectorLevel : Option Level)
      (wrapName fnName : String) (fn : JsVal → List JsVal → α) (thisArg : JsVal)
      (args : List JsVal),
      ((tracingWrapper st tracingLevel collectorLevel wrapName fnName fn thisArg args).2 =
        fn thisArg args) ∧
      (shouldLog st.enabled st.level collectorLevel tracingLevel = false →
        (tracingWrapper st tracingLevel collectorLevel wrapName fnName fn thisArg args).1 =
          (st, none)) ∧
      (shouldLog st.enabled st.level collectorLevel tracingLevel = true →
        (tracingWrapper st tracingLevel collectorLevel wrapName fnName fn thisArg args).1 =
          (st, some ⟨tracingLevel, traceMessageText wrapName fnName args, none, []⟩)) := by
  intro st tracingLevel collectorLevel wrapName fnName fn thisArg args
  refine ⟨rfl, ?_, ?_⟩
  · intro hfilter
    show logStep st _ = (st, none)
    unfold logStep
    simp [hfilter]
  · intro hfilter
    show logStep st _ = _
    unfold logStep
    simp [hfilter, captureError, traceMessageText, logMessageText]

/-- Witness for C3: with the logger disabled, invoking the wrapper of an
argument-counting function still calls it (the result is 2) and writes no
trace line; with the logger enabled at global level `trace`, the line
`[TRACE] getUser(5, 'x')` is written. -/
theorem tracingWrapper_preserves_call_witness :
    (tracingWrapper (α := Nat) ⟨false, Level.trace, []⟩ Level.trace none
        "wrapped" "getUser" (fun _ args => args.length) (JsVal.vstr "this")
        [JsVal.vint 5, JsVal.vstr "x"] =
      ((⟨false, Level.trace, []⟩, none), 2)) ∧
    ((tracingWrapper (α := Nat) ⟨true, Level.trace, []⟩ Level.trace none
        "wrapped" "getUser" (fun _ args => args.length) (JsVal.vstr "this")
        [JsVal.vint 5, JsVal.vstr "x"]).1 =
      (⟨true, Level.trace, []⟩,
        some ⟨Level.trace, "[TRACE] getUser(5, 'x')", none, []⟩)) := by
  have h1 := tracingWrapper_preserves_call (α := Nat) ⟨false, Level.trace, []⟩
    Level.trace none "wrapped" "getUser" (fun _ args => args.length)
    (JsVal.vstr "this") [JsVal.vint 5, JsVal.vstr "x"]
  have h2 := tracingWrapper_preserves_call (α := Nat) ⟨true, Level.trace, []⟩
    Level.trace none "wrapped" "getUser" (fun _ args => args.length)
    (JsVal.vstr "this") [JsVal.vint 5, JsVal.vstr "x"]
  refine ⟨?_, ?_⟩
  · have hpair := h1.2.1 (by decide)
    have hval := h1.1
    calc tracingWrapper (α := Nat) ⟨false, Level.trace, []⟩ Level.trace none
          "wrapped" "getUser" (fun _ args => args.length) (JsVal.vstr "this")
          [JsVal.vint 5, JsVal.vstr "x"]
        = (_, _) := (Prod.mk.eta).symm
      _ = ((⟨false, Level.trace, []⟩, none), 2) := by rw [hpair, hval]; rfl
  · have hpair := h2.2.2 (by decide)
    rw [hpair]
    decide

/-! ## Bulk tracing, `_addTracing` (`src/logger.js` lines 207-232)

Function values and target objects carry reference identities.  Each call to
`_makeTracingWrapper` creates a fresh wrapper closing over the wrapped
function, modelled by the `traced` constructor.  The `_tracingTargets`
`WeakSet` is the list of identities of the objects it contains. -/

/-- A function-valued property: an original method, or a tracing wrapper
created around one (`_makeTracingWrapper(collector, key, fn)`). -/
inductive JsFun
  | base (id : Nat)
  | traced (key : String) (inner : JsFun)
deriving DecidableEq, Repr

/-- An own enumerable property of a tracing target. -/
inductive TraceProp
  | fn (f : JsFun)
  | data (v : String)
deriving DecidableEq, Repr

/-- A tracing target object: its identity and its own enumerable
properties in order. -/
structure TraceTarget where
  tid : Nat
  props : List (String × TraceProp)
deriving DecidableEq, Repr

/-- `MayanLogger.isTracingEnabled` (`src/logger.js` line 198):
`!!(_enabled && options.tracing && options.tracing.enabled)`. -/
def isTracingEnabled (enabled tracingOptionEnabled : Bool) : Bool :=
  enabled && tracingOptionEnabled

/-- `MayanLogger._addTracing` (`src/logger.js` lines 207-232) on an object
target (the not-an-object throw branch is unreachable for the object inputs
modelled here).  Wraps every own function-valued property not in
`untracedMethods`, unless the target is already in `_tracingTargets`.
Returns the `_tracingTargets` set and the (mutated) target. -/
def addTracing (tracingTargets : List Nat) (tracingEnabled : Bool)
    (untracedMethods : List JsFun) (target : TraceTarget) :
    List Nat × TraceTarget :=
  if !tracingEnabled then
    -- Tracing is disabled, do nothing
    (tracingTargets, target)
  else if target.tid ∈ tracingTargets then
    -- Already added tracing for this object
    (tracingTargets, target)
  else
    -- NOTE: nothing is ever added to `_tracingTargets` in the source
    (tracingTargets,
      { target with
          props := target.props.map fun kv =>
            match kv with
            | (key, .fn f) =>
                if f ∈ untracedMethods then (key, .fn f)
                else (key, .fn (.traced key f))
            | (key, v) => (key, v) })

/-- C4 (what the code actually does at the claimed scenario): with the
logger and tracing enabled, a first `_addTracing` call on a target with one
method wraps the method but does **not** record the target in
`_tracingTargets` (the set stays empty), so a second call on the same target
wraps the already-wrapped method a second time instead of leaving the target
unchanged. -/
theorem addTracing_double_wraps :
    (addTracing [] (isTracingEnabled true true) []
        ⟨0, [("getUser", TraceProp.fn (JsFun.base 0))]⟩ =
      ([], ⟨0, [("getUser", TraceProp.fn (JsFun.traced "getUser" (JsFun.base 0)))]⟩)) ∧
    (addTracing [] (isTracingEnabled true true) []
        ⟨0, [("getUser", TraceProp.fn (JsFun.traced "getUser" (JsFun.base 0)))]⟩ =
      ([], ⟨0, [("getUser",
        TraceProp.fn (JsFun.traced "getUser" (JsFun.traced "getUser" (JsFun.base 0))))]⟩)) ∧
    (JsFun.traced "getUser" (JsFun.traced "getUser" (JsFun.base 0)) ≠
      JsFun.traced "getUser" (JsFun.base 0)) := by
  decide

/-! ## The collector registry, `Logger.for` (`src/logger.js` lines 151-178)
and `setCollectorLevel` (lines 288-300)

Collector instances have reference identity, modelled by a fresh numeric id
assigned at construction; the registry `_collectors` is an association list
from derived key to collector. -/

/-- An argument to `for(...)`: a value with a `name` property (a named
function/constructor, also carrying its `String(x)` fallback form), or any
other value via its `String(x)` form. -/
inductive TagArg
  | fn (name : String) (stringForm : String)
  | plain (stringForm : String)
deriving DecidableEq, Repr

/-- The per-argument conversion in `for(...)`: `x && x.name` (a non-empty
`name` is truthy) selects the name, otherwise `String(x)`. -/
def tagArgToString : TagArg → String
  | .fn name stringForm => if name ≠ "" then name else stringForm
  | .plain s => s

/-- The tag list `for(...)` computes: stringified arguments with falsy
(empty) tags filtered out. -/
def derivedTags (args : List TagArg) : List String :=
  (args.map tagArgToString).filter (fun t => t ≠ "")

/-- The registry key: tags joined with `'_'`. -/
def derivedKey (args : List TagArg) : String :=
  String.intercalate "_" (derivedTags args)

/-- A registered collector: its identity, key, tags and mutable per-collector
level override (the state part of `MayanLogCollector`). -/
structure MayanCollector where
  cid : Nat
  key : String
  tags : List String
  level : Option Level
deriving DecidableEq, Repr

/-- The registry owned by a `MayanLogger`: `_collectors`, the next fresh
collector identity, and the immutable `options.collector_levels` seeding
map. -/
structure Registry where
  entries : List (String × MayanCollector)
  nextId : Nat
  collectorLevels : List (String × Level)
deriving DecidableEq, Repr

/-- `Logger.for(...tags)` (`src/logger.js` lines 151-178): derive the key;
return the registered collector if the key is present, otherwise construct,
register and return a fresh collector (seeding its level override from
`options.collector_levels[key]`). -/
def forOp (r : Registry) (args : List TagArg) : Registry × MayanCollector :=
  match r.entries.lookup (derivedKey args) with
  | some c => (r, c)
  | none =>
      ({ r with
          entries := r.entries ++
            [(derivedKey args,
              ⟨r.nextId, derivedKey args, derivedTags args,
                r.collectorLevels.lookup (derivedKey args)⟩)],
          nextId := r.nextId + 1 },
        ⟨r.nextId, derivedKey args, derivedTags args,
          r.collectorLevels.lookup (derivedKey args)⟩)

/-- Registry well-formedness: every registered collector's `key` field is
the key it is registered under (true of every registry built by `forOp`
from the empty one). -/
def RegistryWF (r : Registry) : Prop :=
  ∀ k c, r.entries.lookup k = some c → c.key = k

/-- A key found in the front part of an appended association list. -/
theorem lookup_append_of_some {α β : Type} [BEq α] {l₁ : List (α × β)} (l₂ : List (α × β))
    {k : α} {v : β} (h : l₁.lookup k = some v) : (l₁ ++ l₂).lookup k = some v := by
  induction l₁ with
  | nil => simp [List.lookup] at h
  | cons kv rest ih =>
      rcases kv with ⟨k', v'⟩
      by_cases hk : k == k'
      · simp_all [List.lookup]
      · simp only [List.lookup, hk] at h
        simp only [List.cons_append, List.lookup, hk]
        exact ih h

/-- A key absent from the front part of an appended association list. -/
theorem lookup_append_of_none {α β : Type} [BEq α] {l₁ : List (α × β)} (l₂ : List (α × β))
    {k : α} (h : l₁.lookup k = none) : (l₁ ++ l₂).lookup k = l₂.lookup k := by
  induction l₁ with
  | nil => simp
  | cons kv rest ih =>
      rcases kv with ⟨k', v'⟩
      by_cases hk : k == k'
      · simp [List.lookup, hk] at h
      · simp only [List.lookup, hk] at h
        simp only [List.cons_append, List.lookup, hk]
        exact ih h

/-- After `forOp`, the derived key is registered and maps to the returned
collector. -/
theorem forOp_lookup_self (r : Registry) (args : List TagArg) :
    ((forOp r args).1).entries.lookup (derivedKey args) = some (forOp r args).2 := by
  cases h : r.entries.lookup (derivedKey args) with
  | some c => simp only [forOp, h]
  | none =>
      simp only [forOp, h]
      rw [lookup_append_of_none _ h]
      simp [List.lookup]

/-- `forOp` preserves registry well-formedness. -/
theorem forOp_WF (r : Registry) (args : List TagArg) (hwf : RegistryWF r) :
    RegistryWF (forOp r args).1 := by
  cases h : r.entries.lookup (derivedKey args) with
  | some c => simp only [forOp, h]; exact hwf
  | none =>
      intro k c hk
      simp only [forOp, h] at hk
      cases hk' : r.entries.lookup k with
      | some c' =>
          rw [lookup_append_of_some _ hk'] at hk
          cases hk
          exact hwf k c hk'
      | none =>
          rw [lookup_append_of_none _ hk'] at hk
          simp only [List.lookup] at hk
          by_cases hkey : k == derivedKey args
          · simp only [hkey, cond_true] at hk
            cases hk
            exact (eq_of_beq hkey).symm
          · simp [hkey] at hk

/-- The collector `forOp` returns carries the derived key. -/
theorem forOp_key (r : Registry) (args : List TagArg) (hwf : RegistryWF r) :
    (forOp r args).2.key = derivedKey args := by
  cases h : r.entries.lookup (derivedKey args) with
  | some c => simp only [forOp, h]; exact hwf _ _ h
  | none => simp only [forOp, h]

/-- C5: `for(...)` is idempotent per derived key — a repeated call with the
same arguments returns the identical collector instance and performs no
registration — while argument lists with different derived keys (such as
`for('a','b')` and `for('b','a')`, whose order-sensitive keys are `"a_b"`
and `"b_a"`) yield distinct collector instances. -/
theorem for_idempotent_and_order_sensitive :
    ∀ (r : Registry) (args args2 : List TagArg),
      (forOp (forOp r args).1 args = forOp r args) ∧
      (RegistryWF r → derivedKey args ≠ derivedKey args2 →
        (forOp r args).2 ≠ (forOp (forOp r args).1 args2).2) ∧
      (derivedKey [TagArg.plain "a", TagArg.plain "b"] = "a_b" ∧
        derivedKey [TagArg.plain "b", TagArg.plain "a"] = "b_a") := by
  intro r args args2
  refine ⟨?_, ?_, by decide, by decide⟩
  · have hself := forOp_lookup_self r args
    conv_lhs => rw [forOp, hself]
  · intro hwf hne
    have h1 : (forOp r args).2.key = derivedKey args := forOp_key r args hwf
    have h2 : (forOp (forOp r args).1 args2).2.key = derivedKey args2 :=
      forOp_key _ args2 (forOp_WF r args hwf)
    intro heq
    exact hne (h1 ▸ h2 ▸ congrArg MayanCollector.key heq)

/-- Witness for C5: from the empty registry, `for('a','b')` followed by
`for('b','a')` returns two distinct collector instances, and repeating
`for('a','b')` returns the identical instance. -/
theorem for_idempotent_and_order_sensitive_witness :
    (forOp (forOp ⟨[], 0, []⟩ [TagArg.plain "a", TagArg.plain "b"]).1
        [TagArg.plain "a", TagArg.plain "b"] =
      forOp ⟨[], 0, []⟩ [TagArg.plain "a", TagArg.plain "b"]) ∧
    (forOp ⟨[], 0, []⟩ [TagArg.plain "a", TagArg.plain "b"]).2 ≠
      (forOp (forOp ⟨[], 0, []⟩ [TagArg.plain "a", TagArg.plain "b"]).1
        [TagArg.plain "b", TagArg.plain "a"]).2 :=
  ⟨(for_idempotent_and_order_sensitive ⟨[], 0, []⟩
      [TagArg.plain "a", TagArg.plain "b"] [TagArg.plain "b", TagArg.plain "a"]).1,
    (for_idempotent_and_order_sensitive ⟨[], 0, []⟩
      [TagArg.plain "a", TagArg.plain "b"] [TagArg.plain "b", TagArg.plain "a"]).2.1
      (by intro k c h; simp [List.lookup] at h) (by decide)⟩

/-- C10: two argument lists whose derived tags join to the same underscore
key alias to one collector: once the first call registers the key, the
second call returns the identical collector instance without touching the
registry, and that collector's tags are the first call's tags. -/
theorem for_aliases_on_equal_keys :
    ∀ (r : Registry) (args1 args2 : List TagArg),
      derivedKey args1 = derivedKey args2 →
      r.entries.lookup (derivedKey args1) = none →
      forOp (forOp r args1).1 args2 = forOp r args1 ∧
      (forOp r args1).2.tags = derivedTags args1 := by
  intro r args1 args2 hkey hnone
  constructor
  · have hself := forOp_lookup_self r args1
    rw [hkey] at hself
    conv_lhs => rw [forOp, hself]
  · simp only [forOp, hnone]

/-- Witness for C10: from the empty registry, `for('a','b')` and
`for('a_b')` both derive the key `"a_b"`; the second call returns the first
call's collector, whose tags are `["a","b"]`. -/
theorem for_aliases_on_equal_keys_witness :
    forOp (forOp ⟨[], 0, []⟩ [TagArg.plain "a", TagArg.plain "b"]).1
        [TagArg.plain "a_b"] =
      forOp ⟨[], 0, []⟩ [TagArg.plain "a", TagArg.plain "b"] ∧
    (forOp ⟨[], 0, []⟩ [TagArg.plain "a", TagArg.plain "b"]).2.tags = ["a", "b"] :=
  for_aliases_on_equal_keys ⟨[], 0, []⟩
    [TagArg.plain "a", TagArg.plain "b"] [TagArg.plain "a_b"]
    (by decide) (by simp [List.lookup])

/-- A `MayanLoggerError` (`src/types.js` lines 335-340): a message plus a
machine-readable status-code-like `code` field (default 500). -/
structure MayanLoggerError where
  message : String
  code : Nat
deriving DecidableEq, Repr

/-- `LOG_LEVELS[name]` for a name already in the seven-level set: the hash
maps each level name to itself, so the lookup always succeeds.  (The
`InvalidLogLevelError` branch of `setCollectorLevel` only fires for names
outside the set, which the typed embedding does not represent.) -/
def LOG_LEVELS_lookup (l : Level) : Option Level := some l

/-- `collector.state.level = newLevel`: mutate the level override of the
collector registered under `key`, in place. -/
def setEntryLevel : List (String × MayanCollector) → String → Option Level →
    List (String × MayanCollector)
  | [], _, _ => []
  | (k, c) :: rest, key, lvl =>
      if k == key then (k, { c with level := lvl }) :: rest
      else (k, c) :: setEntryLevel rest key lvl

/-- `MayanLogger.setCollectorLevel` (`src/logger.js` lines 288-300) with a
valid-or-null new level: validate the level (`newLevel &&
!LOG_LEVELS[newLevel]`, never failing for a value of the seven-level set),
fail with a code-400 `MayanLoggerError` if the key is not registered
(leaving the registry as it was), otherwise mutate that collector's level
override in place. -/
def setCollectorLevel (r : Registry) (key : String) (newLevel : Option Level) :
    Registry × Option MayanLoggerError :=
  if (newLevel.map fun l => (LOG_LEVELS_lookup l).isNone).getD false then
    (r, some ⟨"Invalid log level", 400⟩)
  else
    match r.entries.lookup key with
    | none => (r, some ⟨"Invalid collector key: " ++ key, 400⟩)
    | some _ => ({ r with entries := setEntryLevel r.entries key newLevel }, none)

/-- Updating the level of the collector at `key` leaves a registered entry
there with the new level and everything else intact. -/
theorem lookup_setEntryLevel (entries : List (String × MayanCollector)) (key : String)
    (lvl : Option Level) (c : MayanCollector) (h : entries.lookup key = some c) :
    (setEntryLevel entries key lvl).lookup key = some { c with level := lvl } := by
  induction entries with
  | nil => simp [List.lookup] at h
  | cons kv rest ih =>
      rcases kv with ⟨k', c'⟩
      by_cases hk : key == k'
      · simp only [List.lookup, hk, cond_true] at h
        cases h
        have hk' : k' == key := by
          have := eq_of_beq hk
          simp [this]
        simp [setEntryLevel, hk', List.lookup, hk]
      · have hk' : ¬ (k' == key) := fun hc => hk (by simp [eq_of_beq hc])
        simp only [List.lookup, hk, cond_false] at h
        simp only [setEntryLevel, if_neg hk', List.lookup, hk, cond_false]
        exact ih h

/-- C8: `setCollectorLevel` on an unregistered key fails synchronously with
the code-400 "Invalid collector key" `MayanLoggerError` and leaves the
registry — hence every registered collector's level override — unchanged;
on a registered key, a null/undefined level clears the override, after
which `_shouldLog` for that collector compares against the live global
level. -/
theorem setCollectorLevel_unknown_key_fails :
    ∀ (r : Registry) (key : String) (newLevel : Option Level),
      (r.entries.lookup key = none →
        setCollectorLevel r key newLevel =
          (r, some ⟨"Invalid collector key: " ++ key, 400⟩)) ∧
      (∀ c : MayanCollector, r.entries.lookup key = some c →
        (setCollectorLevel r key none).2 = none ∧
        ((setCollectorLevel r key none).1).entries.lookup key =
          some { c with level := none } ∧
        (∀ (enabled : Bool) (globalLevel callLevel : Level),
          shouldLog enabled globalLevel ({ c with level := none } : MayanCollector).level
              callLevel =
            (enabled && decide (LOG_LEVEL_VALUES callLevel ≤ LOG_LEVEL_VALUES globalLevel)))) := by
  intro r key newLevel
  constructor
  · intro hnone
    cases newLevel with
    | none => simp only [setCollectorLevel, hnone]; rfl
    | some l => simp only [setCollectorLevel, LOG_LEVELS_lookup, hnone]; rfl
  · intro c hsome
    refine ⟨?_, ?_, ?_⟩
    · simp [setCollectorLevel, hsome]
    · simp only [setCollectorLevel, LOG_LEVELS_lookup, Option.map_none, Option.getD_none,
        Bool.false_eq_true, if_neg, hsome]
      exact lookup_setEntryLevel r.entries key none c hsome
    · intro enabled globalLevel callLevel
      cases enabled <;> simp [shouldLog]

/-- Witness for C8: on a registry holding only the key `"db"`, changing the
level of the unknown key `"http"` fails with the code-400 error and changes
nothing, while clearing `"db"`'s override (set to `verbose`) succeeds and
makes its filtering follow the global level. -/
theorem setCollectorLevel_unknown_key_fails_witness :
    (setCollectorLevel ⟨[("db", ⟨0, "db", ["db"], some Level.verbose⟩)], 1, []⟩
        "http" (some Level.debug) =
      (⟨[("db", ⟨0, "db", ["db"], some Level.verbose⟩)], 1, []⟩,
        some ⟨"Invalid collector key: http", 400⟩)) ∧
    ((setCollectorLevel ⟨[("db", ⟨0, "db", ["db"], some Level.verbose⟩)], 1, []⟩
        "db" none).2 = none ∧
      ((setCollectorLevel ⟨[("db", ⟨0, "db", ["db"], some Level.verbose⟩)], 1, []⟩
          "db" none).1).entries.lookup "db" = some ⟨0, "db", ["db"], none⟩ ∧
      (∀ (enabled : Bool) (globalLevel callLevel : Level),
        shouldLog enabled globalLevel
            (⟨0, "db", ["db"], none⟩ : MayanCollector).level callLevel =
          (enabled && decide (LOG_LEVEL_VALUES callLevel ≤ LOG_LEVEL_VALUES globalLevel)))) :=
  ⟨(setCollectorLevel_unknown_key_fails
      ⟨[("db", ⟨0, "db", ["db"], some Level.verbose⟩)], 1, []⟩
      "http" (some Level.debug)).1 (by decide),
    (setCollectorLevel_unknown_key_fails
      ⟨[("db", ⟨0, "db", ["db"], some Level.verbose⟩)], 1, []⟩
      "db" none).2 ⟨0, "db", ["db"], some Level.verbose⟩ (by decide)⟩

/-! ## The JSON formatter, `formatAsJSON` (`src/formats.js` lines 169-191)

```js
function formatAsJSON(msg) {
  const payload = { ...msg };
  payload.tags = msg.collector.tags;
  delete payload.collector;
  if (payload.error) {
    if (!(Object.getOwnPropertyDescriptor(payload, 'stack') || {}).enumerable) {
      const err = payload.error;
      payload.error = { ...err };
      payload.error.message = err.message;
      payload.error.stack = err.stack;
    }
    if (!payload.message) {
      payload.message = payload.error.message || payload.error;
    }
  }
  return JSON.stringify(payload);
}
```

The emitted JSON document is modelled as a tree; `JSON.stringify` keeps
`null`-valued properties, drops `undefined`-valued ones, and serializes an
object's own enumerable properties.  The payload is the spread of the
`MayanLoggerMessage` fields (in constructor order: collector, level,
message, error, data, timestamp) with `tags` assigned afterwards (appended
last) and `collector` deleted. -/

/-- A JSON value. -/
inductive JValue
  | jnull
  | jstr (s : String)
  | jnum (n : Int)
  | jbool (b : Bool)
  | jarr (elems : List JValue)
  | jobj (fields : List (String × JValue))

/-- Whether a JSON value is a string. -/
def JValue.isStr : JValue → Bool
  | .jstr _ => true
  | _ => false

/-- An `Error` instance as `formatAsJSON` sees it: its `message` and `stack`
properties with their enumerability (non-enumerable on ordinary error
values), plus any other own enumerable properties. -/
structure FormatError where
  message : String
  stack : String
  messageEnumerable : Bool
  stackEnumerable : Bool
  otherProps : List (String × JValue)

/-- `{ ...err }`: the error's own enumerable properties.  (The relative
order of `message`/`stack` against the other properties is a modelling
choice; it is irrelevant once both are overwritten.) -/
def enumerableOwnProps (e : FormatError) : List (String × JValue) :=
  e.otherProps ++
    (if e.messageEnumerable then [("message", JValue.jstr e.message)] else []) ++
    (if e.stackEnumerable then [("stack", JValue.jstr e.stack)] else [])

/-- JavaScript property assignment on an object modelled as an ordered
association list: overwrite the property in place if present, otherwise
append it. -/
def jsAssign {β : Type} (fields : List (String × β)) (key : String) (v : β) :
    List (String × β) :=
  if (fields.lookup key).isSome then
    fields.map fun kv => if kv.1 == key then (key, v) else kv
  else
    fields ++ [(key, v)]

/-- The plain replacement object built when the payload's own `stack`
property is not enumerable: `{ ...err }` with `message` and `stack` then
assigned explicitly. -/
def replacedError (e : FormatError) : List (String × JValue) :=
  jsAssign (jsAssign (enumerableOwnProps e) "message" (JValue.jstr e.message))
    "stack" (JValue.jstr e.stack)

/-- A property of the payload object: `undefined`, a JSON-able value, a
reference to the original `Error` instance, or the plain replacement
object. -/
inductive PayloadField
  | undef
  | val (v : JValue)
  | errRef (e : FormatError)
  | errPlain (fields : List (String × JValue))

/-- `JSON.stringify` on one payload property: `undefined` is dropped, an
`Error` reference serializes its own enumerable properties, the replacement
object serializes all its fields. -/
def stringifyField : PayloadField → Option JValue
  | .undef => none
  | .val v => some v
  | .errRef e => some (.jobj (enumerableOwnProps e))
  | .errPlain fields => some (.jobj fields)

/-- `payload.error.message || payload.error`: the error field's `message`
property when truthy (a non-empty string), otherwise the error field's value
itself. -/
def errorMessageOrSelf : PayloadField → PayloadField
  | .errPlain fields =>
      match fields.lookup "message" with
      | some (JValue.jstr s) => if s ≠ "" then .val (JValue.jstr s) else .errPlain fields
      | _ => .errPlain fields
  | .errRef e => if e.message ≠ "" then .val (JValue.jstr e.message) else .errRef e
  | f => f

/-- The fields of a `MayanLoggerMessage` relevant to JSON formatting: the
collector's tags, the level, the message text, the optional error, the
optional extra data, and the timestamp (`none` models the `null` produced
when timestamps are disabled). -/
structure JsonMessage where
  tags : List String
  level : Level
  message : String
  error : Option FormatError
  data : Option (List JValue)
  timestamp : Option String

/-- The payload after the spread, the `tags` assignment and the `collector`
deletion. -/
def basePayload (msg : JsonMessage) : List (String × PayloadField) :=
  [("level", .val (.jstr (levelName msg.level))),
    ("message", .val (.jstr msg.message)),
    ("error", match msg.error with | some e => .errRef e | none => .undef),
    ("data", match msg.data with | some d => .val (.jarr d) | none => .undef),
    ("timestamp", match msg.timestamp with | some t => .val (.jstr t) | none => .val .jnull),
    ("tags", .val (.jarr (msg.tags.map JValue.jstr)))]

/-- `formatAsJSON` (`src/formats.js` lines 169-191), producing the emitted
JSON document. -/
def formatAsJSON (msg : JsonMessage) : JValue :=
  let payload := basePayload msg
  let payload :=
    match msg.error with
    | none => payload
    | some e =>
        -- The descriptor check reads the *payload's* own `stack` property,
        -- which does not exist, so the replacement branch is taken.
        let payload :=
          if (payload.lookup "stack").isSome then payload
          else jsAssign payload "error" (.errPlain (replacedError e))
        if msg.message = "" then
          jsAssign payload "message"
            (errorMessageOrSelf ((payload.lookup "error").getD .undef))
        else payload
  .jobj (payload.filterMap fun kv => (stringifyField kv.2).map fun v => (kv.1, v))

/-- A field of the emitted JSON document. -/
def jsonField (doc : JValue) (key : String) : Option JValue :=
  match doc with
  | .jobj fields => fields.lookup key
  | _ => none

/-- Overwriting the property at `key` in the found case: the new value is
looked up. -/
theorem lookup_map_overwrite_self {β : Type} (fields : List (String × β)) (key : String)
    (v : β) :
    (fields.lookup key).isSome = true →
      (fields.map fun kv => if kv.1 == key then (key, v) else kv).lookup key = some v := by
  induction fields with
  | nil => intro h; simp [List.lookup] at h
  | cons kv rest ih =>
      rcases kv with ⟨k', v'⟩
      intro h
      simp only [List.map_cons]
      by_cases hk : (k' == key) = true
      · rw [if_pos hk]
        simp [List.lookup]
      · rw [if_neg hk]
        have hne : key ≠ k' := fun hc => hk (by simp [hc])
        have hk2 : (key == k') = false := beq_eq_false_iff_ne.mpr hne
        simp only [List.lookup, hk2] at h ⊢
        exact ih h

/-- Overwriting the property at `key` does not touch lookups at other
keys. -/
theorem lookup_map_overwrite_ne {β : Type} (fields : List (String × β)) (key k : String)
    (v : β) (h : (k == key) = false) :
    (fields.map fun kv => if kv.1 == key then (key, v) else kv).lookup k =
      fields.lookup k := by
  induction fields with
  | nil => rfl
  | cons kv rest ih =>
      rcases kv with ⟨k', v'⟩
      simp only [List.map_cons]
      by_cases hk : (k' == key) = true
      · rw [if_pos hk]
        have hkk : (k == k') = false := by
          refine beq_eq_false_iff_ne.mpr fun hc => ?_
          rw [hc] at h
          rw [h] at hk
          exact Bool.false_ne_true hk
        simp only [List.lookup, h, hkk]
        exact ih
      · rw [if_neg hk]
        simp only [List.lookup]
        by_cases hkk : (k == k') = true
        · simp [hkk]
        · have hkk2 : (k == k') = false := by simpa using hkk
          simp only [hkk2]
          exact ih

/-- JavaScript assignment makes the property hold the assigned value. -/
theorem lookup_jsAssign_self {β : Type} (fields : List (String × β)) (key : String) (v : β) :
    (jsAssign fields key v).lookup key = some v := by
  unfold jsAssign
  split
  · next hfound => exact lookup_map_overwrite_self fields key v hfound
  · next hnone =>
      have h : fields.lookup key = none := by
        cases h : fields.lookup key with
        | none => rfl
        | some _ => exact absurd (by simp [h]) hnone
      rw [lookup_append_of_none _ h]
      simp [List.lookup]

/-- JavaScript assignment leaves other properties alone. -/
theorem lookup_jsAssign_ne {β : Type} (fields : List (String × β)) (key k : String) (v : β)
    (h : (k == key) = false) : (jsAssign fields key v).lookup k = fields.lookup k := by
  unfold jsAssign
  split
  · exact lookup_map_overwrite_ne fields key k v h
  · cases hf : fields.lookup k with
    | some w => exact lookup_append_of_some _ hf
    | none =>
        rw [lookup_append_of_none _ hf]
        simp [List.lookup, h]

/-- The replacement error object carries the error's `message` and `stack`
as its `message`/`stack` properties. -/
theorem replacedError_fields (e : FormatError) :
    (replacedError e).lookup "message" = some (JValue.jstr e.message) ∧
    (replacedError e).lookup "stack" = some (JValue.jstr e.stack) := by
  constructor
  · unfold replacedError
    rw [lookup_jsAssign_ne _ _ _ _ (by decide)]
    exact lookup_jsAssign_self _ "message" _
  · exact lookup_jsAssign_self _ "stack" _

/-- C6 (as the code actually behaves): for a message carrying an error whose
`message`/`stack` are non-enumerable, the emitted JSON document's `error`
field is the plain replacement object, which carries both the error's
message and its stack; the document has no `collector` field but a `tags`
field holding the collector's tags; an empty message field is backfilled
from the error's message when that is non-empty, and otherwise holds the
replacement error object itself (a JSON object, not a string). -/
theorem formatAsJSON_preserves_error :
    ∀ (msg : JsonMessage) (e : FormatError),
      msg.error = some e →
      e.messageEnumerable = false →
      e.stackEnumerable = false →
      (jsonField (formatAsJSON msg) "error" = some (.jobj (replacedError e)) ∧
        (replacedError e).lookup "message" = some (.jstr e.message) ∧
        (replacedError e).lookup "stack" = some (.jstr e.stack)) ∧
      jsonField (formatAsJSON msg) "collector" = none ∧
      jsonField (formatAsJSON msg) "tags" = some (.jarr (msg.tags.map JValue.jstr)) ∧
      (msg.message = "" → e.message ≠ "" →
        jsonField (formatAsJSON msg) "message" = some (.jstr e.message)) ∧
      (msg.message = "" → e.message = "" →
        jsonField (formatAsJSON msg) "message" = some (.jobj (replacedError e))) := by
  rintro ⟨tags, level, message, error, data, timestamp⟩ e herr hm hs
  simp only at herr
  subst herr
  have hrm := (replacedError_fields e).1
  by_cases hmsg : message = "" <;> by_cases hemsg : e.message = "" <;>
    cases data <;> cases timestamp <;>
      refine ⟨⟨?_, (replacedError_fields e).1, (replacedError_fields e).2⟩, ?_, ?_, ?_, ?_⟩ <;>
        simp [formatAsJSON, basePayload, jsAssign, jsonField, stringifyField,
          errorMessageOrSelf, List.lookup, List.filterMap_cons, hmsg, hemsg, hrm]

/-- Witness for C6: a message with empty text, tag `Service` and a
non-enumerable error `disk low`: the document keeps the error's message and
stack, replaces `collector` with `tags`, and backfills `message`. -/
theorem formatAsJSON_preserves_error_witness :
    jsonField (formatAsJSON ⟨["Service"], Level.warn, "",
        some ⟨"disk low", "Error: disk low\n    at main", false, false, []⟩, none, none⟩)
        "error" =
      some (.jobj (replacedError ⟨"disk low", "Error: disk low\n    at main",
        false, false, []⟩)) ∧
    jsonField (formatAsJSON ⟨["Service"], Level.warn, "",
        some ⟨"disk low", "Error: disk low\n    at main", false, false, []⟩, none, none⟩)
        "collector" = none ∧
    jsonField (formatAsJSON ⟨["Service"], Level.warn, "",
        some ⟨"disk low", "Error: disk low\n    at main", false, false, []⟩, none, none⟩)
        "tags" = some (.jarr [JValue.jstr "Service"]) ∧
    jsonField (formatAsJSON ⟨["Service"], Level.warn, "",
        some ⟨"disk low", "Error: disk low\n    at main", false, false, []⟩, none, none⟩)
        "message" = some (.jstr "disk low") :=
  have h := formatAsJSON_preserves_error
    ⟨["Service"], Level.warn, "",
      some ⟨"disk low", "Error: disk low\n    at main", false, false, []⟩, none, none⟩
    ⟨"disk low", "Error: disk low\n    at main", false, false, []⟩ rfl rfl rfl
  ⟨h.1.1, h.2.1, h.2.2.1, h.2.2.2.1 rfl (by decide)⟩

/-- Counterexample to C6's backfill clause as stated: for an error whose own
`message` is the empty string, the backfilled `message` field of the JSON
document is the replacement error object — a JSON object, not a string
(neither the error's message nor any string form of the error). -/
theorem formatAsJSON_backfill_counterexample :
    jsonField (formatAsJSON ⟨["Service"], Level.error, "",
        some ⟨"", "Error\n    at main", false, false, []⟩, none, none⟩) "message" =
      some (.jobj [("message", JValue.jstr ""), ("stack", JValue.jstr "Error\n    at main")]) ∧
    (jsonField (formatAsJSON ⟨["Service"], Level.error, "",
        some ⟨"", "Error\n    at main", false, false, []⟩, none, none⟩) "message").map
        JValue.isStr =
      some false := by
  exact ⟨rfl, rfl⟩

end Mayan
